import Mathlib

/-!
Shallow embedding of the geometry/movement engine and entity hierarchy of the
canvas-invaders repository (src/geom.rs, src/entities.rs), together with
theorems settling the frozen specification claims.

Rust `f64` distances are modelled as `ℚ`; the claims under study are exact
arithmetic properties of the algorithms, not floating-point rounding facts.
Mutation is modelled by explicit state passing: a Rust method that mutates
its receiver becomes a Lean function returning the updated value.  The
unbounded `loop` in the `Cycle` arm of `OffsetStrategy::offset` is embedded
with explicit fuel and an `Option` result (`none` = the loop did not settle
within the fuel); fuel 3 is what the termination claim C8 proves sufficient.
-/

/-- Rust `type Distance = f64` (src/geom.rs line 1), modelled exactly as `ℚ`. -/
abbrev Distance := ℚ

/-- The magnitude of a rational, written as an explicit conditional. -/
def qmag (x : Distance) : Distance :=
  if 0 ≤ x then x else -x

/-- Rust `f64::copysign`: the magnitude of `x` with the sign of `s`
(a nonnegative `s` plays the role of a positive-sign-bit float). -/
def copysign (x s : Distance) : Distance :=
  if 0 ≤ s then qmag x else -(qmag x)

/-- The movement-strategy enum of src/geom.rs lines 137-150. -/
inductive OffsetStrategy where
  | linear : OffsetStrategy
  | limit (min max : Distance) : OffsetStrategy
  | cycle (min max direction : Distance) : OffsetStrategy
deriving DecidableEq, Repr

/-- Rust `impl Default for OffsetStrategy` (src/geom.rs lines 152-156): `Linear`. -/
instance : Inhabited OffsetStrategy := ⟨.linear⟩

/-- Constructor `OffsetStrategy::cycle` (src/geom.rs lines 167-173): the
direction state starts at `1.0`. -/
def OffsetStrategy.cycleNew (min max : Distance) : OffsetStrategy :=
  .cycle min max 1

/-- The reflection `loop` body of the `Cycle` arm (src/geom.rs lines 185-197),
with fuel.  The two branches keep the source's exact arithmetic:
`result -= (result - max)` at the upper bound and `result = min + (min - result)`
at the lower bound, updating the direction state to `-1` resp. `1`. -/
def cycleLoop : Nat → Distance → Distance → Distance → Distance → Option (Distance × Distance)
  | 0, _, _, _, _ => none
  | fuel + 1, mn, mx, dir, result =>
    if mx < result then
      cycleLoop fuel mn mx (-1) (result - (result - mx))
    else if result < mn then
      cycleLoop fuel mn mx 1 (mn + (mn - result))
    else
      some (result, dir)

/-- Method `OffsetStrategy::offset` (src/geom.rs lines 175-200).  The returned pair
carries the new axis value and the post-call strategy (the `Cycle` arm mutates
its `direction` field in place in Rust). -/
def OffsetStrategy.offset : OffsetStrategy → Distance → Distance → Option (Distance × OffsetStrategy)
  | .linear, current, off => some (current + off, .linear)
  | .limit mn mx, current, off => some (max (min (current + off) mx) mn, .limit mn mx)
  | .cycle mn mx dir, current, off =>
    (cycleLoop 3 mn mx dir (current + copysign off dir)).map
      (fun p => (p.1, .cycle mn mx p.2))

/-- The coordinate pair of src/geom.rs lines 3-9. -/
structure Coordinates where
  x : Distance
  y : Distance
  xStrategy : OffsetStrategy
  yStrategy : OffsetStrategy
deriving DecidableEq, Repr

/-- Rust `#[derive(Default)]` on `Coordinates`: zero values, `Linear` strategies. -/
instance : Inhabited Coordinates := ⟨⟨0, 0, .linear, .linear⟩⟩

/-- Type `Position` is a transparent newtype over `Coordinates` (src/geom.rs line 71). -/
abbrev Position := Coordinates

/-- Type `Size` is a transparent newtype over `Coordinates` (src/geom.rs line 94). -/
abbrev Size := Coordinates

/-- Constructor `Position::new` (src/geom.rs lines 74-80): given x, y, default strategies. -/
def Position.new (x y : Distance) : Position :=
  { x := x, y := y, xStrategy := default, yStrategy := default }

/-- Constructor `Size::new` (src/geom.rs lines 97-103). -/
def Size.new (x y : Distance) : Size :=
  { x := x, y := y, xStrategy := default, yStrategy := default }

/-- Method `XY::offset` (src/geom.rs lines 58-67): route each axis delta through that
axis's strategy and write back both the new values and the mutated strategies. -/
def Coordinates.offset (c : Coordinates) (dx dy : Distance) : Option Coordinates := do
  let px ← c.xStrategy.offset c.x dx
  let py ← c.yStrategy.offset c.y dy
  pure { x := px.1, y := py.1, xStrategy := px.2, yStrategy := py.2 }

/-- The spec's `clamp(x, min, max)` (§4.1), written from the spec's words:
the nearest point of `[lo, hi]` as the usual min/max sandwich. -/
def specClamp (x lo hi : Distance) : Distance :=
  max lo (min x hi)

-- ## Entities (src/entities.rs)

/-- Sprite constants from src/entities/icons/mod.rs.  Pixel contents are
opaque to every claim; buffers are modelled as zero bytes of the real length. -/
def icons.SHIP_WIDTH : Nat := 48

/-- Ship sprite height (src/entities/icons/mod.rs line 2). -/
def icons.SHIP_HEIGHT : Nat := 48

/-- Ship sprite pixel buffer: 48*48*4 = 9216 bytes. -/
def icons.SHIP : List Nat := List.replicate (48 * 48 * 4) 0

/-- Bullet sprite width (src/entities/icons/mod.rs line 5). -/
def icons.BULLET_WIDTH : Nat := 16

/-- Bullet sprite height (src/entities/icons/mod.rs line 6). -/
def icons.BULLET_HEIGHT : Nat := 16

/-- Bullet sprite pixel buffer: 16*16*4 = 1024 bytes. -/
def icons.BULLET : List Nat := List.replicate (16 * 16 * 4) 0

/-- Enemy sprite width (src/entities/icons/mod.rs line 11). -/
def icons.ENEMY_WIDTH : Nat := 16

/-- Enemy sprite height (src/entities/icons/mod.rs line 12). -/
def icons.ENEMY_HEIGHT : Nat := 16

/-- The four enemy sprite buffers (`ENEMIES`), distinguished by fill byte. -/
def icons.ENEMIES : List (List Nat) :=
  [List.replicate 1024 0, List.replicate 1024 1,
   List.replicate 1024 2, List.replicate 1024 3]

/-- The drawable entity of src/entities.rs lines 9-13. -/
structure Entity where
  size : Size
  position : Position
  data : List Nat
deriving DecidableEq, Repr

/-- Placeholder entity used only to model Rust's unreachable `unwrap` failure
arm (`Entity::new` in fact always succeeds). -/
instance : Inhabited Entity :=
  ⟨{ size := default, position := default, data := [] }⟩

/-- Constructor `Entity::new` (src/entities.rs lines 16-24): copies the pixel buffer into
the entity and unconditionally returns `Ok` — there is no length validation. -/
def Entity.new (width height : Nat) (image : List Nat) : Except String Entity :=
  .ok { size := Size.new (width : Distance) (height : Distance),
        position := default,
        data := image }

/-- Enum `Direction` (src/entities.rs lines 61-67); `Stopped` is the default. -/
inductive Direction where
  | left : Direction
  | stopped : Direction
  | right : Direction
deriving DecidableEq, Repr

instance : Inhabited Direction := ⟨.stopped⟩

/-- The projectile of src/entities.rs lines 252-254. -/
structure Bullet where
  inner : Entity
deriving DecidableEq, Repr

/-- Constant `Bullet::RATE` (src/entities.rs line 257): 0.5 pixels per millisecond. -/
def Bullet.RATE : Distance := 1 / 2

/-- Constructor `Bullet::new` (src/entities.rs lines 259-266): a 16×16 bullet entity whose
position is overwritten with the supplied one. -/
def Bullet.new (position : Position) : Bullet :=
  let inner := match Entity.new icons.BULLET_WIDTH icons.BULLET_HEIGHT icons.BULLET with
    | .ok e => e
    | .error _ => default
  { inner := { inner with position := position } }

/-- Method `Bullet::animate` (src/entities.rs lines 268-273): move straight up by
`RATE * offset_ts` (a direct `set_y`, not strategy-routed), then draw. -/
def Bullet.animate (b : Bullet) (offset_ts : Distance) : Bullet :=
  { b with inner := { b.inner with position :=
      { b.inner.position with y := b.inner.position.y - Bullet.RATE * offset_ts } } }

/-- The player ship of src/entities.rs lines 69-74. -/
structure Ship where
  inner : Entity
  direction : Direction
  rate : Distance
  bullets : List Bullet
deriving DecidableEq, Repr

/-- Constructor `Ship::new` (src/entities.rs lines 77-102): x strategy
`Limit{left_bound, right_bound - SHIP_WIDTH}`, x at the computed center,
y strategy `Limit{y_position, y_position}`, y at `y_position - SHIP_HEIGHT`. -/
def Ship.new (rate y_position left_bound right_bound : Distance) : Ship :=
  let inner0 := match Entity.new icons.SHIP_WIDTH icons.SHIP_HEIGHT icons.SHIP with
    | .ok e => e
    | .error _ => default
  let center := left_bound + ((right_bound - left_bound) / 2)
      + ((icons.SHIP_WIDTH : Distance) / 2)
  let pos : Position :=
    { inner0.position with
      xStrategy := .limit left_bound (right_bound - (icons.SHIP_WIDTH : Distance)),
      x := center,
      yStrategy := .limit y_position y_position,
      y := y_position - (icons.SHIP_HEIGHT : Distance) }
  { inner := { inner0 with position := pos },
    direction := default,
    rate := rate,
    bullets := [] }

/-- Rust `Vec::swap_remove(i)` (used at src/entities.rs line 118): overwrite slot
`i` with the last element, then pop the last slot. -/
def swapRemove (l : List α) (i : Nat) : List α :=
  match l.getLast? with
  | none => l
  | some a => (l.set i a).dropLast

/-- The `while i < self.bullets.len()` loop of `Ship::animate`
(src/entities.rs lines 113-123), with fuel (each pass either removes the
current bullet without advancing `i`, or animates it in place and advances). -/
def bulletPass (offset_ts : Distance) : Nat → List Bullet → Nat → List Bullet
  | 0, bs, _ => bs
  | fuel + 1, bs, i =>
    if h : i < bs.length then
      if bs[i].inner.position.y < -(icons.BULLET_HEIGHT : Distance) then
        bulletPass offset_ts fuel (swapRemove bs i) i
      else
        bulletPass offset_ts fuel (bs.set i (bs[i].animate offset_ts)) (i + 1)
    else bs

/-- Method `Ship::animate` (src/entities.rs lines 104-124): apply the direction-scaled
offset through the position strategies, then run the bullet expiry/animate
loop.  Fuel `length + 1` covers every pass of the loop. -/
def Ship.animate (s : Ship) (offset_ts : Distance) : Option Ship :=
  let off := offset_ts * s.rate
  let p : Option Position :=
    match s.direction with
    | .left => s.inner.position.offset (-off) 0
    | .right => s.inner.position.offset off 0
    | .stopped => some s.inner.position
  p.map fun pos =>
    { s with inner := { s.inner with position := pos },
             bullets := bulletPass offset_ts (s.bullets.length + 1) s.bullets 0 }

-- ## Fleet (src/entities.rs lines 136-250)

/-- Index-carrying map, modelling Rust's `iter().enumerate()` over a list
starting at index `i`. -/
def mapIdxFrom (f : Nat → α → β) : Nat → List α → List β
  | _, [] => []
  | i, a :: as => f i a :: mapIdxFrom f (i + 1) as

/-- The enemy grid of src/entities.rs lines 136-142. -/
structure Fleet where
  size : Size
  position : Position
  rate : Distance
  spacing : Distance
  members : List (List Entity)
deriving DecidableEq, Repr

/-- Constructor `Fleet::new` (src/entities.rs lines 145-187): members are laid out at
`(col*(memberWidth+spacing), row*(memberHeight+spacing))` — relative to the
origin, not to the fleet position — the enemy images cycle in row-major
order, the aggregate size is the grid bounding box, and the fleet position is
`(left_bound, 60.0)` with a `Cycle` x strategy over
`[left_bound, right_bound - size.x]`. -/
def Fleet.new (rows columns : Nat) (spacing left_bound right_bound : Distance) : Fleet :=
  let member : Nat → Nat → Entity := fun row_idx col_idx =>
    let img := icons.ENEMIES.getD ((row_idx * columns + col_idx) % icons.ENEMIES.length) []
    let e0 := match Entity.new icons.ENEMY_WIDTH icons.ENEMY_HEIGHT img with
      | .ok e => e
      | .error _ => default
    { e0 with position := { e0.position with
        x := (col_idx : Distance) * (e0.size.x + spacing),
        y := (row_idx : Distance) * (e0.size.y + spacing) } }
  let size := Size.new
    ((columns : Distance) * ((icons.ENEMY_WIDTH : Distance) + spacing) - spacing)
    ((rows : Distance) * ((icons.ENEMY_HEIGHT : Distance) + spacing) - spacing)
  let position0 := Position.new left_bound 60
  let position := { position0 with
    xStrategy := OffsetStrategy.cycleNew left_bound (right_bound - size.x) }
  { size := size,
    position := position,
    rate := 3 / 100,
    spacing := spacing,
    members := (List.range rows).map (fun r => (List.range columns).map (member r)) }

/-- Fleet's `set_x` override (src/entities.rs lines 205-214): every member's
x is recomputed from its column index and own width, then the fleet position
x is updated. -/
def Fleet.setX (fl : Fleet) (x : Distance) : Fleet :=
  { fl with
    members := fl.members.map (fun row =>
      mapIdxFrom (fun col_idx m =>
        { m with position := { m.position with
            x := (col_idx : Distance) * (m.size.x + fl.spacing) + x } }) 0 row),
    position := { fl.position with x := x } }

/-- Fleet's `set_y` override (src/entities.rs lines 216-225). -/
def Fleet.setY (fl : Fleet) (y : Distance) : Fleet :=
  { fl with
    members := mapIdxFrom (fun row_idx row =>
      row.map (fun m =>
        { m with position := { m.position with
            y := (row_idx : Distance) * (m.size.y + fl.spacing) + y } })) 0 fl.members,
    position := { fl.position with y := y } }

/-- Method `XY::offset` as dispatched for `Fleet` (src/geom.rs lines 58-67 with the
overrides of src/entities.rs lines 196-226): the strategies of the fleet's
own position produce the new coordinates and are updated in place, then
`set_x` and `set_y` propagate the move to every member. -/
def Fleet.offset (fl : Fleet) (dx dy : Distance) : Option Fleet := do
  let px ← fl.position.xStrategy.offset fl.position.x dx
  let py ← fl.position.yStrategy.offset fl.position.y dy
  pure ((({ fl with position :=
      { fl.position with xStrategy := px.2, yStrategy := py.2 } }).setX px.1).setY py.1)

/-- Method `Fleet::animate` (src/entities.rs lines 189-193): x-only offset scaled by
the fleet rate, then draw. -/
def Fleet.animate (fl : Fleet) (offset_ts : Distance) : Option Fleet :=
  fl.offset (offset_ts * fl.rate) 0

/-- The spec's fleet-rigidity invariant, written from the spec's words:
every member at row `r`, column `c` sits at
`fleetPosition + (c*(memberWidth+spacing), r*(memberHeight+spacing))`. -/
def fleetRigid (fl : Fleet) : Prop :=
  ∀ r c, r < fl.members.length → c < (fl.members.getD r []).length →
    ((fl.members.getD r []).getD c default).position.x
        = fl.position.x
          + (c : Distance) * (((fl.members.getD r []).getD c default).size.x + fl.spacing)
    ∧ ((fl.members.getD r []).getD c default).position.y
        = fl.position.y
          + (r : Distance) * (((fl.members.getD r []).getD c default).size.y + fl.spacing)

-- ## Concrete fixtures for the witnesses

/-- A ship as built at startup: rate 0.5, bottom margin y, playfield `[30, 770]`. -/
def testShip : Ship := Ship.new (1 / 2) 570 30 770

/-- The same ship with the left key held. -/
def testShipLeft : Ship := { testShip with direction := .left }

/-- The same ship owning four bullets: two live, one exactly on the expiry
line (kept), and two past it (removed). -/
def testShipBullets : Ship :=
  { testShip with bullets :=
      [Bullet.new (Position.new 40 5), Bullet.new (Position.new 41 (-20)),
       Bullet.new (Position.new 42 (-16)), Bullet.new (Position.new 43 (-17))] }

/-- A 2×3 enemy fleet with spacing 5 on the playfield `[30, 770]`. -/
def testFleet : Fleet := Fleet.new 2 3 5 30 770

-- ## Shared lemmas about the cycle loop

lemma cycleLoop_succ (fuel : Nat) (mn mx dir r : Distance) :
    cycleLoop (fuel + 1) mn mx dir r =
      if mx < r then cycleLoop fuel mn mx (-1) (r - (r - mx))
      else if r < mn then cycleLoop fuel mn mx 1 (mn + (mn - r))
      else some (r, dir) := rfl

lemma cycleLoop_settles (mn mx dir r : Distance) (fuel : Nat)
    (hb : mn ≤ mx) (hf : 3 ≤ fuel) :
    ∃ q d, cycleLoop fuel mn mx dir r = some (q, d) ∧ mn ≤ q ∧ q ≤ mx := by
  obtain ⟨n, rfl⟩ : ∃ n, fuel = n + 1 + 1 + 1 := ⟨fuel - 3, by omega⟩
  rcases lt_or_le mx r with h1 | h1
  · -- overshoot above: the source's `result -= (result - max)` lands exactly on `mx`
    have e1 : r - (r - mx) = mx := by ring
    refine ⟨mx, -1, ?_, hb, le_refl mx⟩
    rw [cycleLoop_succ, if_pos h1, e1, cycleLoop_succ,
      if_neg (lt_irrefl mx), if_neg (not_lt.mpr hb)]
  · rcases lt_or_le r mn with h2 | h2
    · -- overshoot below: reflected to `mn + (mn - r)`, which may still exceed `mx`
      have hgt : mn ≤ mn + (mn - r) := by linarith
      rcases lt_or_le mx (mn + (mn - r)) with h3 | h3
      · have e2 : mn + (mn - r) - (mn + (mn - r) - mx) = mx := by ring
        refine ⟨mx, -1, ?_, hb, le_refl mx⟩
        rw [cycleLoop_succ, if_neg (not_lt.mpr h1), if_pos h2, cycleLoop_succ,
          if_pos h3, e2, cycleLoop_succ, if_neg (lt_irrefl mx), if_neg (not_lt.mpr hb)]
      · refine ⟨mn + (mn - r), 1, ?_, hgt, h3⟩
        rw [cycleLoop_succ, if_neg (not_lt.mpr h1), if_pos h2, cycleLoop_succ,
          if_neg (not_lt.mpr h3), if_neg (not_lt.mpr hgt)]
    · refine ⟨r, dir, ?_, h2, h1⟩
      rw [cycleLoop_succ, if_neg (not_lt.mpr h1), if_neg (not_lt.mpr h2)]

lemma cycle_offset_settles (mn mx dir c d : Distance) (hb : mn ≤ mx) :
    ∃ q dir', (OffsetStrategy.cycle mn mx dir).offset c d
        = some (q, .cycle mn mx dir') ∧ mn ≤ q ∧ q ≤ mx := by
  obtain ⟨q, d', hq, h1, h2⟩ :=
    cycleLoop_settles mn mx dir (c + copysign d dir) 3 hb (le_refl 3)
  exact ⟨q, d', by simp [OffsetStrategy.offset, hq], h1, h2⟩

-- ## C9: the Limit strategy is clamping

/-- C9: `Limit{min,max}.offset(c, d)` equals `clamp(c + d, min, max)` and returns
the strategy unchanged (no state mutation); with `d = 0` it is the pure clamp of
the current value, and re-applying `offset(·, 0)` to a value it has already
returned leaves that value unchanged (idempotence). -/
theorem limit_offset_is_clamp (mn mx c d : Distance) :
    (OffsetStrategy.limit mn mx).offset c d
        = some (specClamp (c + d) mn mx, .limit mn mx)
  ∧ (OffsetStrategy.limit mn mx).offset c 0
        = some (specClamp c mn mx, .limit mn mx)
  ∧ (OffsetStrategy.limit mn mx).offset (specClamp (c + d) mn mx) 0
        = some (specClamp (c + d) mn mx, .limit mn mx) := by
  have key : ∀ v : Distance, (OffsetStrategy.limit mn mx).offset v 0
      = some (specClamp v mn mx, .limit mn mx) := by
    intro v
    simp only [OffsetStrategy.offset, add_zero, specClamp, max_comm]
  have idem : specClamp (specClamp (c + d) mn mx) mn mx = specClamp (c + d) mn mx := by
    rcases le_total mn mx with h | h
    · have l1 : mn ≤ specClamp (c + d) mn mx := le_max_left _ _
      have l2 : specClamp (c + d) mn mx ≤ mx :=
        max_le h (min_le_right _ _)
      calc specClamp (specClamp (c + d) mn mx) mn mx
          = max mn (min (specClamp (c + d) mn mx) mx) := rfl
        _ = max mn (specClamp (c + d) mn mx) := by rw [min_eq_left l2]
        _ = specClamp (c + d) mn mx := max_eq_right l1
    · have l0 : specClamp (c + d) mn mx = mn :=
        max_eq_left ((min_le_right _ _).trans h)
      rw [l0]
      calc specClamp mn mn mx = max mn (min mn mx) := rfl
        _ = max mn mx := by rw [min_eq_right h]
        _ = mn := max_eq_left h
  refine ⟨?_, key c, ?_⟩
  · simp only [OffsetStrategy.offset, specClamp, max_comm]
  · rw [key (specClamp (c + d) mn mx), idem]

-- ## C1: at the max bound the cycle arm clamps instead of reflecting

/-- C1 (failing input): with `Cycle{min := 0, max := 10, direction := 1}`,
`offset(8, 5)` overshoots the max bound by 3; the claimed true reflection
would settle at `10 - 3 = 7`, but the code's `result -= (result - max)`
cancels the whole overshoot and returns `10` (clamping, losing the
delta magnitude), while still flipping the direction state to `-1`. -/
theorem cycle_clamps_at_max_bound :
    (OffsetStrategy.cycle 0 10 1).offset 8 5
        = some (10, .cycle 0 10 (-1))
  ∧ ((10 : Distance) ≠ 7) := by
  constructor
  · have hcs : (8 : Distance) + copysign 5 1 = 13 := by norm_num [copysign, qmag]
    have h1 : cycleLoop 3 (0 : Distance) 10 1 13
        = cycleLoop 2 0 10 (-1) (13 - (13 - 10)) := by
      rw [show (3 : Nat) = 2 + 1 from rfl, cycleLoop_succ,
        if_pos (by norm_num : (10 : Distance) < 13)]
    have h2 : (13 : Distance) - (13 - 10) = 10 := by norm_num
    have h3 : cycleLoop 2 (0 : Distance) 10 (-1) 10 = some (10, -1) := by
      rw [show (2 : Nat) = 1 + 1 from rfl, cycleLoop_succ,
        if_neg (by norm_num : ¬ (10 : Distance) < 10),
        if_neg (by norm_num : ¬ (10 : Distance) < 0)]
    simp only [OffsetStrategy.offset, hcs, h1, h2, h3]
    rfl
  · norm_num

-- ## C2: boundedness of the cycle strategy

/-- C2: for bounds `min ≤ max`, any current value in `[min, max]` and any delta,
`Cycle{min,max,_}.offset(current, delta)` settles and returns a value in
`[min, max]`. -/
theorem cycle_offset_stays_in_bounds (mn mx dir c d : Distance)
    (hb : mn ≤ mx) (hc1 : mn ≤ c) (hc2 : c ≤ mx) :
    ∃ q dir', (OffsetStrategy.cycle mn mx dir).offset c d
        = some (q, .cycle mn mx dir') ∧ mn ≤ q ∧ q ≤ mx := by
  exact cycle_offset_settles mn mx dir c d hb

/-- Witness for C2 at `Cycle{0,10,1}`, current 5, delta 100. -/
theorem cycle_offset_stays_in_bounds_witness :
    ((0 : Distance) ≤ 10 ∧ (0 : Distance) ≤ 5 ∧ (5 : Distance) ≤ 10)
  ∧ ∃ q dir', (OffsetStrategy.cycle 0 10 1).offset 5 100
        = some (q, .cycle 0 10 dir') ∧ 0 ≤ q ∧ q ≤ 10 :=
  ⟨⟨by norm_num, by norm_num, by norm_num⟩,
    cycle_offset_stays_in_bounds 0 10 1 5 100 (by norm_num) (by norm_num) (by norm_num)⟩

-- ## C8: the reflection loop terminates whenever min ≤ max

/-- C8: for every cycle strategy with ordered bounds, any current value, any
direction state and any delta (in particular deltas far larger than the span),
the fueled reflection loop settles — both the raw loop (any fuel ≥ 3) and the
full `offset` entry point return a result. -/
theorem cycle_offset_total_on_ordered_bounds (mn mx dir c d r : Distance) (fuel : Nat)
    (hb : mn ≤ mx) (hf : 3 ≤ fuel) :
    (cycleLoop fuel mn mx dir r).isSome = true
  ∧ ((OffsetStrategy.cycle mn mx dir).offset c d).isSome = true := by
  constructor
  · obtain ⟨q, d', hq, -, -⟩ := cycleLoop_settles mn mx dir r fuel hb hf
    simp [hq]
  · obtain ⟨q, d', hq, -, -⟩ := cycle_offset_settles mn mx dir c d hb
    simp [hq]

/-- Witness for C8 with a delta (1000) vastly exceeding the span `[0, 3]`. -/
theorem cycle_offset_total_witness :
    ((0 : Distance) ≤ 3 ∧ (3 : Nat) ≤ 5)
  ∧ ((cycleLoop 5 0 3 1 1000).isSome = true
      ∧ ((OffsetStrategy.cycle 0 3 1).offset 2 1000).isSome = true) :=
  ⟨⟨by norm_num, by norm_num⟩,
    cycle_offset_total_on_ordered_bounds 0 3 1 2 1000 1000 5 (by norm_num) (by norm_num)⟩

-- ## C6: cycle vs linear on deltas that need no reflection

/-- C6 (counterexample): `Cycle{0,10,1}.offset(5, -3)` computes the intermediate
`5 + copysign(-3, 1) = 8` — not `5 + (-3)·sign(1) = 2` — and returns 8 with no
reflection (both 8 and 2 lie inside `[0, 10]`), whereas `Linear.offset(5, -3)`
returns 2: the claimed agreement fails for negative deltas. -/
theorem cycle_negative_delta_diverges_from_linear :
    (OffsetStrategy.cycle 0 10 1).offset 5 (-3) = some (8, .cycle 0 10 1)
  ∧ OffsetStrategy.linear.offset 5 (-3) = some (2, .linear)
  ∧ ((0 : Distance) ≤ 8 ∧ (8 : Distance) ≤ 10)
  ∧ ((0 : Distance) ≤ 2 ∧ (2 : Distance) ≤ 10)
  ∧ ((8 : Distance) ≠ 2) := by
  refine ⟨?_, by norm_num [OffsetStrategy.offset], by norm_num, by norm_num, by norm_num⟩
  have hcs : (5 : Distance) + copysign (-3) 1 = 8 := by norm_num [copysign, qmag]
  have hloop : cycleLoop 3 (0 : Distance) 10 1 8 = some (8, 1) := by
    rw [show (3 : Nat) = 2 + 1 from rfl, cycleLoop_succ,
      if_neg (by norm_num : ¬ (10 : Distance) < 8),
      if_neg (by norm_num : ¬ (8 : Distance) < 0)]
  simp only [OffsetStrategy.offset, hcs, hloop]
  rfl

/-- C6 (amended): the cycle arm first computes the intermediate
`current + copysign(delta, direction)`; whenever the delta's sign agrees with
the direction state (`copysign(delta, direction) = delta`) and the plain sum
`current + delta` lies within `[min, max]`, no reflection occurs and
`Cycle.offset` returns exactly `Linear.offset`'s plain addition, leaving the
direction state unchanged. -/
theorem cycle_eq_linear_of_aligned_sign (mn mx dir c d : Distance)
    (hsign : copysign d dir = d) (h1 : mn ≤ c + d) (h2 : c + d ≤ mx) :
    (OffsetStrategy.cycle mn mx dir).offset c d = some (c + d, .cycle mn mx dir)
  ∧ OffsetStrategy.linear.offset c d = some (c + d, .linear) := by
  constructor
  · have hloop : cycleLoop 3 mn mx dir (c + d) = some (c + d, dir) := by
      rw [show (3 : Nat) = 2 + 1 from rfl, cycleLoop_succ,
        if_neg (not_lt.mpr h2), if_neg (not_lt.mpr h1)]
    simp only [OffsetStrategy.offset, hsign, hloop]
    rfl
  · rfl

/-- Witness for the amended C6: `Cycle{0,10,1}.offset(4, 3)` agrees with plain
addition. -/
theorem cycle_eq_linear_witness :
    (copysign 3 1 = (3 : Distance) ∧ (0 : Distance) ≤ 4 + 3 ∧ (4 : Distance) + 3 ≤ 10)
  ∧ ((OffsetStrategy.cycle 0 10 1).offset 4 3 = some (4 + 3, .cycle 0 10 1)
      ∧ OffsetStrategy.linear.offset 4 3 = some (4 + 3, .linear)) :=
  ⟨⟨by norm_num [copysign, qmag], by norm_num, by norm_num⟩,
    cycle_eq_linear_of_aligned_sign 0 10 1 4 3 (by norm_num [copysign, qmag])
      (by norm_num) (by norm_num)⟩

-- ## Shared lemmas about coordinate offsets

lemma coordinates_offset_unfold (c : Coordinates) (dx dy : Distance) :
    c.offset dx dy = (c.xStrategy.offset c.x dx).bind (fun px =>
      (c.yStrategy.offset c.y dy).bind (fun py =>
        some { x := px.1, y := py.1, xStrategy := px.2, yStrategy := py.2 })) := rfl

lemma Coordinates.offset_limit_limit (c : Coordinates) (xmn xmx ymn ymx dx dy : Distance)
    (hx : c.xStrategy = .limit xmn xmx) (hy : c.yStrategy = .limit ymn ymx) :
    c.offset dx dy = some
      { x := max (min (c.x + dx) xmx) xmn,
        y := max (min (c.y + dy) ymx) ymn,
        xStrategy := .limit xmn xmx,
        yStrategy := .limit ymn ymx } := by
  rw [coordinates_offset_unfold, hx, hy]
  rfl

-- ## C3: Entity construction never validates the pixel buffer

/-- C3 (counterexample): `Entity::new(2, 2, buffer)` with a 3-byte buffer —
whose length differs from `2*2*4 = 16` — still succeeds, because the
constructor copies the buffer and returns `Ok` with no length check. -/
theorem entity_new_accepts_mismatched_buffer :
    Entity.new 2 2 [0, 0, 0]
      = .ok { size := Size.new ((2 : Nat) : Distance) ((2 : Nat) : Distance),
              position := default, data := [0, 0, 0] }
  ∧ ¬ (([0, 0, 0] : List Nat).length = 2 * 2 * 4) :=
  ⟨rfl, by decide⟩

/-- C3 (amended): `Entity::new(width, height, pixelSource)` always succeeds,
returning the entity that stores the supplied buffer verbatim; no
construction-failure error is ever produced (the buffer length is not
compared against `width*height*4`). -/
theorem entity_new_always_ok (width height : Nat) (image : List Nat) :
    Entity.new width height image
      = .ok { size := Size.new (width : Distance) (height : Distance),
              position := default, data := image } := rfl

-- ## C7: Ship.animate direction handling and x clamping

/-- C7: with strategies as installed by `Ship::new` (`Limit{lb, rb - shipWidth}`
on x, a `Limit` on y), `Ship.animate(Δ)` always produces a ship; with
direction `Stopped` the position is unchanged, with `Left` the x becomes
`clamp(x - Δ·rate, lb, rb - shipWidth)` and with `Right`
`clamp(x + Δ·rate, lb, rb - shipWidth)`, in both cases staying within
`[lb, rb - shipWidth]`. -/
theorem ship_animate_direction_effects (s : Ship) (lb rb ymn ymx Δ : Distance)
    (hx : s.inner.position.xStrategy
        = .limit lb (rb - (icons.SHIP_WIDTH : Distance)))
    (hy : s.inner.position.yStrategy = .limit ymn ymx)
    (hb : lb ≤ rb - (icons.SHIP_WIDTH : Distance)) :
    (s.animate Δ).isSome = true
  ∧ (s.direction = .stopped →
      ((s.animate Δ).getD s).inner.position.x = s.inner.position.x
      ∧ ((s.animate Δ).getD s).inner.position.y = s.inner.position.y)
  ∧ (s.direction = .left →
      ((s.animate Δ).getD s).inner.position.x
        = specClamp (s.inner.position.x - Δ * s.rate) lb
            (rb - (icons.SHIP_WIDTH : Distance))
      ∧ lb ≤ ((s.animate Δ).getD s).inner.position.x
      ∧ ((s.animate Δ).getD s).inner.position.x
          ≤ rb - (icons.SHIP_WIDTH : Distance))
  ∧ (s.direction = .right →
      ((s.animate Δ).getD s).inner.position.x
        = specClamp (s.inner.position.x + Δ * s.rate) lb
            (rb - (icons.SHIP_WIDTH : Distance))
      ∧ lb ≤ ((s.animate Δ).getD s).inner.position.x
      ∧ ((s.animate Δ).getD s).inner.position.x
          ≤ rb - (icons.SHIP_WIDTH : Distance)) := by
  set xmx := rb - (icons.SHIP_WIDTH : Distance) with hxmx
  cases hdir : s.direction with
  | stopped =>
    refine ⟨by simp [Ship.animate, hdir], fun _ => ?_, fun hcon => ?_, fun hcon => ?_⟩
    · constructor <;> simp [Ship.animate, hdir]
    · cases hcon
    · cases hcon
  | left =>
    have hoff := Coordinates.offset_limit_limit s.inner.position lb xmx ymn ymx
      (-(Δ * s.rate)) 0 hx hy
    refine ⟨by simp [Ship.animate, hdir, hoff], ?_, ?_, ?_⟩
    · intro hcon; cases hcon
    · intro _
      have hget : ((s.animate Δ).getD s).inner.position.x
          = max (min (s.inner.position.x + -(Δ * s.rate)) xmx) lb := by
        simp [Ship.animate, hdir, hoff]
      refine ⟨?_, ?_, ?_⟩
      · rw [hget, specClamp, sub_eq_add_neg, max_comm]
      · rw [hget]; exact le_max_right _ _
      · rw [hget]; exact max_le (min_le_right _ _) hb
    · intro hcon; cases hcon
  | right =>
    have hoff := Coordinates.offset_limit_limit s.inner.position lb xmx ymn ymx
      (Δ * s.rate) 0 hx hy
    refine ⟨by simp [Ship.animate, hdir, hoff], ?_, ?_, ?_⟩
    · intro hcon; cases hcon
    · intro hcon; cases hcon
    · intro _
      have hget : ((s.animate Δ).getD s).inner.position.x
          = max (min (s.inner.position.x + Δ * s.rate) xmx) lb := by
        simp [Ship.animate, hdir, hoff]
      refine ⟨?_, ?_, ?_⟩
      · rw [hget, specClamp, max_comm]
      · rw [hget]; exact le_max_right _ _
      · rw [hget]; exact max_le (min_le_right _ _) hb

-- ## C10: the y snap on the first moving frame

/-- C10: `Ship::new` leaves the ship's y at `y_position - shipHeight` while
installing the y strategy `Limit{y_position, y_position}`; consequently any
`animate` call with direction `Left` or `Right` (which routes the position
through the strategies) sets y to exactly `y_position` and keeps that strategy,
so y stays `y_position` from the first moving frame on, and a `Stopped`
`animate` call never changes y. -/
theorem ship_first_move_snaps_y (rate y_position lb rb Δ : Distance) (s : Ship) :
    (Ship.new rate y_position lb rb).inner.position.y
        = y_position - (icons.SHIP_HEIGHT : Distance)
  ∧ (Ship.new rate y_position lb rb).inner.position.yStrategy
        = .limit y_position y_position
  ∧ (s.inner.position.yStrategy = .limit y_position y_position →
      (s.direction = .left ∨ s.direction = .right) →
      (s.animate Δ).isSome = true →
      ((s.animate Δ).getD s).inner.position.y = y_position
      ∧ ((s.animate Δ).getD s).inner.position.yStrategy
          = .limit y_position y_position)
  ∧ (s.direction = .stopped →
      ((s.animate Δ).getD s).inner.position.y = s.inner.position.y) := by
  refine ⟨rfl, rfl, ?_, ?_⟩
  · intro hy hdir hs
    have hyval : ∀ px : Distance × OffsetStrategy, ∀ dx,
        s.inner.position.xStrategy.offset s.inner.position.x dx = some px →
        s.inner.position.offset dx 0 = some
          { x := px.1,
            y := max (min (s.inner.position.y + 0) y_position) y_position,
            xStrategy := px.2,
            yStrategy := .limit y_position y_position } := by
      intro px dx hpx
      rw [coordinates_offset_unfold, hpx, hy]
      rfl
    have hcollapse : max (min (s.inner.position.y + 0) y_position) y_position
        = y_position := max_eq_right (min_le_right _ _)
    rcases hdir with hdir | hdir
    · rcases hpx : s.inner.position.xStrategy.offset s.inner.position.x
          (-(Δ * s.rate)) with - | px
      · exfalso
        simp only [Ship.animate, hdir, coordinates_offset_unfold, hpx] at hs
        simp at hs
      · have hres := hyval px (-(Δ * s.rate)) hpx
        have : s.animate Δ = some
            { s with
              inner := { s.inner with position :=
                { x := px.1,
                  y := max (min (s.inner.position.y + 0) y_position) y_position,
                  xStrategy := px.2,
                  yStrategy := .limit y_position y_position } },
              bullets := bulletPass Δ (s.bullets.length + 1) s.bullets 0 } := by
          simp only [Ship.animate, hdir, hres, Option.map_some']
        rw [this]
        exact ⟨by simpa using hcollapse, rfl⟩
    · rcases hpx : s.inner.position.xStrategy.offset s.inner.position.x
          (Δ * s.rate) with - | px
      · exfalso
        simp only [Ship.animate, hdir, coordinates_offset_unfold, hpx] at hs
        simp at hs
      · have hres := hyval px (Δ * s.rate) hpx
        have : s.animate Δ = some
            { s with
              inner := { s.inner with position :=
                { x := px.1,
                  y := max (min (s.inner.position.y + 0) y_position) y_position,
                  xStrategy := px.2,
                  yStrategy := .limit y_position y_position } },
              bullets := bulletPass Δ (s.bullets.length + 1) s.bullets 0 } := by
          simp only [Ship.animate, hdir, hres, Option.map_some']
        rw [this]
        exact ⟨by simpa using hcollapse, rfl⟩
  · intro hdir
    simp [Ship.animate, hdir]

-- ## C4: bullet expiry and per-frame animation in Ship.animate

lemma bulletPass_succ (offset_ts : Distance) (fuel : Nat) (bs : List Bullet) (i : Nat) :
    bulletPass offset_ts (fuel + 1) bs i =
      if h : i < bs.length then
        if bs[i].inner.position.y < -(icons.BULLET_HEIGHT : Distance) then
          bulletPass offset_ts fuel (swapRemove bs i) i
        else
          bulletPass offset_ts fuel (bs.set i (bs[i].animate offset_ts)) (i + 1)
      else bs := rfl

/-- One pass over the unprocessed suffix: the loop keeps the already-processed
prefix `take i`, removes every bullet of the suffix below the expiry line, and
animates each survivor exactly once (up to the order scrambling of
`swap_remove`). -/
lemma bulletPass_perm (offset_ts : Distance) :
    ∀ (fuel : Nat) (bs : List Bullet) (i : Nat), bs.length - i < fuel →
      (bulletPass offset_ts fuel bs i).Perm
        (bs.take i ++ (((bs.drop i).filter
            (fun b => !decide (b.inner.position.y < -(icons.BULLET_HEIGHT : Distance)))).map
          (fun b => b.animate offset_ts))) := by
  intro fuel
  induction fuel with
  | zero => intro bs i h; omega
  | succ f ih =>
    intro bs i h
    by_cases hi : i < bs.length
    · have hti : (bs.take i).length = i := by
        rw [List.length_take]; omega
      have hdi : bs.drop i = bs[i] :: bs.drop (i + 1) :=
        List.drop_eq_getElem_cons hi
      by_cases hrem : bs[i].inner.position.y < -(icons.BULLET_HEIGHT : Distance)
      · -- expiry pass: swap_remove, index unchanged
        rw [bulletPass_succ, dif_pos hi, if_pos hrem]
        have hne : bs ≠ [] := List.ne_nil_of_length_pos (by omega)
        have hsw : swapRemove bs i
            = bs.take i ++ (bs.getLast hne :: bs.drop (i + 1)).dropLast := by
          rw [swapRemove, List.getLast?_eq_getLast bs hne]
          show (bs.set i (bs.getLast hne)).dropLast = _
          rw [List.set_eq_take_cons_drop _ hi, List.dropLast_append_cons]
        have hlen : (swapRemove bs i).length - i < f := by
          have : (swapRemove bs i).length = bs.length - 1 := by
            rw [swapRemove, List.getLast?_eq_getLast bs hne]
            show (bs.set i (bs.getLast hne)).dropLast.length = _
            rw [List.length_dropLast, List.length_set]
          omega
        refine (ih (swapRemove bs i) i hlen).trans ?_
        rw [hsw, List.take_left' hti, List.drop_left' hti, hdi,
          List.filter_cons_of_neg (by simp [hrem])]
        refine List.Perm.append_left _ (List.Perm.map _ (List.Perm.filter _ ?_))
        by_cases hD : bs.drop (i + 1) = []
        · rw [hD]
          exact List.Perm.nil
        · rw [List.dropLast_cons_of_ne_nil hD]
          have hgl : bs.getLast hne = (bs.drop (i + 1)).getLast hD := by
            rw [List.getLast_drop]
          rw [hgl]
          have h1 : (((bs.drop (i + 1)).getLast hD) :: (bs.drop (i + 1)).dropLast).Perm
              ((bs.drop (i + 1)).dropLast ++ [(bs.drop (i + 1)).getLast hD]) :=
            (List.perm_append_singleton _ _).symm
          rw [List.dropLast_concat_getLast hD] at h1
          exact h1
      · -- survivor pass: animate in place, advance the index
        rw [bulletPass_succ, dif_pos hi, if_neg hrem]
        have hset : bs.set i (bs[i].animate offset_ts)
            = bs.take i ++ (bs[i].animate offset_ts) :: bs.drop (i + 1) :=
          List.set_eq_take_cons_drop _ hi
        have hlen : (bs.set i (bs[i].animate offset_ts)).length - (i + 1) < f := by
          rw [List.length_set]; omega
        refine (ih _ (i + 1) hlen).trans ?_
        rw [hset]
        have htake : (bs.take i ++ (bs[i].animate offset_ts) :: bs.drop (i + 1)).take (i + 1)
            = bs.take i ++ [bs[i].animate offset_ts] := by
          rw [show i + 1 = (bs.take i).length + 1 by rw [hti], List.take_append]
          rfl
        have hdrop : (bs.take i ++ (bs[i].animate offset_ts) :: bs.drop (i + 1)).drop (i + 1)
            = bs.drop (i + 1) := by
          rw [show i + 1 = (bs.take i).length + 1 by rw [hti], List.drop_append]
          rfl
        rw [htake, hdrop, hdi, List.filter_cons_of_pos (by simp [hrem]),
          List.map_cons, List.append_assoc, List.singleton_append]
    · rw [bulletPass_succ, dif_neg hi,
        List.take_all_of_le (by omega), List.drop_eq_nil_of_le (by omega)]
      simp

lemma Ship.animate_bullets (s : Ship) (offset_ts : Distance) (s' : Ship)
    (h : s.animate offset_ts = some s') :
    s'.bullets = bulletPass offset_ts (s.bullets.length + 1) s.bullets 0 := by
  cases hdir : s.direction with
  | stopped =>
    simp only [Ship.animate, hdir, Option.map_some'] at h
    cases h
    rfl
  | left =>
    simp only [Ship.animate, hdir] at h
    cases hpo : s.inner.position.offset (-(offset_ts * s.rate)) 0 with
    | none => rw [hpo] at h; cases h
    | some pos =>
      rw [hpo, Option.map_some'] at h
      cases h
      rfl
  | right =>
    simp only [Ship.animate, hdir] at h
    cases hpo : s.inner.position.offset (offset_ts * s.rate) 0 with
    | none => rw [hpo] at h; cases h
    | some pos =>
      rw [hpo, Option.map_some'] at h
      cases h
      rfl

/-- C4: whenever `Ship.animate(Δ)` completes, the surviving bullet collection
is — up to the order scrambling of `swap_remove` — exactly the bullets whose
pre-call y was not below `-bulletHeight`, each advanced by its own
`animate(Δ)`; bullets at `y < -bulletHeight` at call time are removed and not
animated, so a bullet is removed on the first `Ship.animate` after its y
crossed the threshold and no earlier. -/
theorem ship_animate_bullet_filter (s : Ship) (Δ : Distance)
    (h : (s.animate Δ).isSome = true) :
    ((s.animate Δ).getD s).bullets.Perm
      ((s.bullets.filter
          (fun b => !decide (b.inner.position.y < -(icons.BULLET_HEIGHT : Distance)))).map
        (fun b => b.animate Δ)) := by
  obtain ⟨s', hres⟩ := Option.isSome_iff_exists.mp h
  rw [hres, Option.getD_some, Ship.animate_bullets s Δ s' hres]
  have := bulletPass_perm Δ (s.bullets.length + 1) s.bullets 0 (by omega)
  simpa using this

-- ## Shared lemmas about indexed maps and fleet repositioning

lemma mapIdxFrom_length (f : Nat → α → β) :
    ∀ (i : Nat) (l : List α), (mapIdxFrom f i l).length = l.length := by
  intro i l
  induction l generalizing i with
  | nil => rfl
  | cons a as ih => simp [mapIdxFrom, ih]

lemma mapIdxFrom_get (f : Nat → α → β) :
    ∀ (l : List α) (i c : Nat) (hc : c < l.length)
      (hc' : c < (mapIdxFrom f i l).length),
      (mapIdxFrom f i l).get ⟨c, hc'⟩ = f (i + c) (l.get ⟨c, hc⟩) := by
  intro l
  induction l with
  | nil => intro i c hc; cases hc
  | cons a as ih =>
    intro i c hc hc'
    cases c with
    | zero => rfl
    | succ c' =>
      have hc2 : c' < as.length := by simpa using hc
      have hc2' : c' < (mapIdxFrom f (i + 1) as).length := by
        rw [mapIdxFrom_length]; exact hc2
      have := ih (i + 1) c' hc2 hc2'
      simpa [mapIdxFrom, Nat.add_assoc, Nat.add_comm 1 c'] using this

lemma getD_of_lt (l : List α) (n : Nat) (d : α) (h : n < l.length) :
    l.getD n d = l.get ⟨n, h⟩ := by
  rw [List.getD_eq_getElem?_getD, List.getElem?_eq_getElem h]
  rfl

lemma setX_members_getD (fl : Fleet) (x : Distance) (r : Nat) (hr : r < fl.members.length) :
    (fl.setX x).members.getD r []
      = mapIdxFrom (fun col_idx m =>
          { m with position := { m.position with
              x := (col_idx : Distance) * (m.size.x + fl.spacing) + x } }) 0
          (fl.members.getD r []) := by
  have hr2 : r < (fl.setX x).members.length := by
    simpa [Fleet.setX] using hr
  rw [getD_of_lt _ r [] hr2, getD_of_lt _ r [] hr]
  simp [Fleet.setX]

lemma setY_members_getD (fl : Fleet) (y : Distance) (r : Nat) (hr : r < fl.members.length) :
    (fl.setY y).members.getD r []
      = (fl.members.getD r []).map (fun m =>
          { m with position := { m.position with
              y := (r : Distance) * (m.size.y + fl.spacing) + y } }) := by
  have hr2 : r < (fl.setY y).members.length := by
    simpa [Fleet.setY, mapIdxFrom_length] using hr
  rw [getD_of_lt _ r [] hr2, getD_of_lt _ r [] hr]
  have hrm : r < (mapIdxFrom (fun row_idx row =>
      row.map (fun m => { m with position := { m.position with
        y := (row_idx : Distance) * (m.size.y + fl.spacing) + y } })) 0 fl.members).length := by
    rw [mapIdxFrom_length]; exact hr
  have := mapIdxFrom_get (fun row_idx row =>
      row.map (fun m => { m with position := { m.position with
        y := (row_idx : Distance) * (m.size.y + fl.spacing) + y } }))
    fl.members 0 r hr hrm
  simpa [Fleet.setY] using this

lemma fleet_setX_setY_rigid (fl : Fleet) (x y : Distance) :
    fleetRigid ((fl.setX x).setY y) := by
  intro r c hr hc
  have hsx : (fl.setX x).members.length = fl.members.length := by
    simp [Fleet.setX]
  have hr1 : r < (fl.setX x).members.length := by
    simpa [Fleet.setY, mapIdxFrom_length] using hr
  have hr0 : r < fl.members.length := by rwa [hsx] at hr1
  have hrow : ((fl.setX x).setY y).members.getD r []
      = (mapIdxFrom (fun col_idx m =>
          { m with position := { m.position with
              x := (col_idx : Distance) * (m.size.x + fl.spacing) + x } }) 0
          (fl.members.getD r [])).map (fun m =>
          { m with position := { m.position with
              y := (r : Distance) * (m.size.y + fl.spacing) + y } }) := by
    rw [setY_members_getD (fl.setX x) y r hr1, setX_members_getD fl x r hr0]
    rfl
  rw [hrow] at hc ⊢
  have hc0 : c < (fl.members.getD r []).length := by
    simpa [mapIdxFrom_length] using hc
  have hcm : c < (mapIdxFrom (fun col_idx m =>
      { m with position := { m.position with
          x := (col_idx : Distance) * (m.size.x + fl.spacing) + x } }) 0
      (fl.members.getD r [])).length := by
    rw [mapIdxFrom_length]; exact hc0
  have helem : ((mapIdxFrom (fun col_idx m =>
        { m with position := { m.position with
            x := (col_idx : Distance) * (m.size.x + fl.spacing) + x } }) 0
        (fl.members.getD r [])).map (fun m =>
        { m with position := { m.position with
            y := (r : Distance) * (m.size.y + fl.spacing) + y } })).getD c default
      = (let m := (fl.members.getD r []).get ⟨c, hc0⟩
         { m with position := { m.position with
             x := (c : Distance) * (m.size.x + fl.spacing) + x,
             y := (r : Distance) * (m.size.y + fl.spacing) + y } }) := by
    rw [getD_of_lt _ c default (by simpa [mapIdxFrom_length] using hc)]
    rw [List.get_eq_getElem, List.getElem_map]
    have := mapIdxFrom_get (fun col_idx m =>
        { m with position := { m.position with
            x := (col_idx : Distance) * (m.size.x + fl.spacing) + x } })
      (fl.members.getD r []) 0 c hc0 hcm
    rw [List.get_eq_getElem] at this
    rw [this]
    simp
  rw [helem]
  constructor
  · show (c : Distance) * (((fl.members.getD r []).get ⟨c, hc0⟩).size.x + fl.spacing) + x
      = x + (c : Distance) * (((fl.members.getD r []).get ⟨c, hc0⟩).size.x + fl.spacing)
    ring
  · show (r : Distance) * (((fl.members.getD r []).get ⟨c, hc0⟩).size.y + fl.spacing) + y
      = y + (r : Distance) * (((fl.members.getD r []).get ⟨c, hc0⟩).size.y + fl.spacing)
    ring

lemma fleet_offset_unfold (fl : Fleet) (dx dy : Distance) :
    fl.offset dx dy = (fl.position.xStrategy.offset fl.position.x dx).bind (fun px =>
      (fl.position.yStrategy.offset fl.position.y dy).bind (fun py =>
        some ((({ fl with position :=
          { fl.position with xStrategy := px.2, yStrategy := py.2 } }).setX px.1).setY
            py.1))) := rfl

lemma fleet_offset_rigid (fl : Fleet) (dx dy : Distance) (fl' : Fleet)
    (h : fl.offset dx dy = some fl') : fleetRigid fl' := by
  rw [fleet_offset_unfold] at h
  cases hpx : fl.position.xStrategy.offset fl.position.x dx with
  | none => rw [hpx] at h; cases h
  | some px =>
    rw [hpx] at h
    cases hpy : fl.position.yStrategy.offset fl.position.y dy with
    | none => rw [hpy] at h; cases h
    | some py =>
      rw [hpy] at h
      simp only [Option.bind_some] at h
      cases h
      have := fleet_setX_setY_rigid
        { fl with position := { fl.position with xStrategy := px.2, yStrategy := py.2 } }
        px.1 py.1
      -- the repositioned grid of the strategy-updated fleet is the same grid
      simpa using this

-- ## C5: fleet rigidity

/-- C5 (counterexample): the fleet of `Fleet::new(1, 1, 0.0, 30.0, 770.0)` has
its single member at `(0, 0)` — laid out relative to the origin — while the
fleet position is `(30, 60)`, so the rigidity invariant
`member = fleetPosition + index*(memberSize+spacing)` fails in the state
immediately after construction. -/
theorem fleet_new_members_not_anchored :
    ¬ fleetRigid (Fleet.new 1 1 0 30 770) := by
  intro h
  have hr : 0 < (Fleet.new 1 1 0 30 770).members.length := by
    simp [Fleet.new]
  have hc : 0 < ((Fleet.new 1 1 0 30 770).members.getD 0 []).length := by
    simp [Fleet.new]
  have h00 := (h 0 0 hr hc).1
  simp only [Fleet.new, Entity.new, Size.new, Position.new, icons.ENEMIES,
    icons.ENEMY_WIDTH, icons.ENEMY_HEIGHT, List.range_succ, List.range_zero, List.map_cons,
    List.map_nil, List.getD_cons_zero] at h00
  norm_num at h00

/-- C5 (amended): every repositioning of the fleet through its `set_x` and
`set_y` overrides — and hence every completed `Fleet.animate`, whose `offset`
performs exactly `set_x` followed by `set_y` — recomputes each member from its
grid index, so the rigidity invariant
`member = fleetPosition + index*(memberSize+spacing)` holds after any such
call (though not necessarily in the state immediately after `Fleet::new`,
where members are laid out relative to the origin instead). -/
theorem fleet_rigid_after_reposition (fl : Fleet) (x y Δ : Distance) :
    fleetRigid ((fl.setX x).setY y)
  ∧ ((fl.animate Δ).isSome = true → fleetRigid ((fl.animate Δ).getD fl)) := by
  refine ⟨fleet_setX_setY_rigid fl x y, fun h => ?_⟩
  obtain ⟨fl', hres⟩ := Option.isSome_iff_exists.mp h
  rw [hres, Option.getD_some]
  exact fleet_offset_rigid fl (Δ * fl.rate) 0 fl' hres

-- ## Witnesses for the entity theorems

/-- Witness for C7 at the concrete left-moving ship. -/
theorem ship_animate_direction_effects_witness :
    ((30 : Distance) ≤ 770 - (icons.SHIP_WIDTH : Distance)
      ∧ testShipLeft.inner.position.xStrategy
          = .limit 30 (770 - (icons.SHIP_WIDTH : Distance))
      ∧ testShipLeft.inner.position.yStrategy = .limit 570 570)
  ∧ (testShipLeft.animate 100).isSome = true
  ∧ (testShipLeft.direction = .left →
      ((testShipLeft.animate 100).getD testShipLeft).inner.position.x
        = specClamp (testShipLeft.inner.position.x - 100 * testShipLeft.rate) 30
            (770 - (icons.SHIP_WIDTH : Distance))
      ∧ 30 ≤ ((testShipLeft.animate 100).getD testShipLeft).inner.position.x
      ∧ ((testShipLeft.animate 100).getD testShipLeft).inner.position.x
          ≤ 770 - (icons.SHIP_WIDTH : Distance)) :=
  ⟨⟨by norm_num [icons.SHIP_WIDTH], rfl, rfl⟩,
   (ship_animate_direction_effects testShipLeft 30 770 570 570 100 rfl rfl
      (by norm_num [icons.SHIP_WIDTH])).1,
   (ship_animate_direction_effects testShipLeft 30 770 570 570 100 rfl rfl
      (by norm_num [icons.SHIP_WIDTH])).2.2.1⟩

/-- Witness for C10 at the concrete left-moving ship. -/
theorem ship_first_move_snaps_y_witness :
    ((Ship.new (1 / 2) 570 30 770).inner.position.y
        = 570 - (icons.SHIP_HEIGHT : Distance)
      ∧ testShipLeft.inner.position.yStrategy = .limit 570 570
      ∧ (testShipLeft.animate 100).isSome = true)
  ∧ ((testShipLeft.animate 100).getD testShipLeft).inner.position.y = 570
  ∧ ((testShipLeft.animate 100).getD testShipLeft).inner.position.yStrategy
      = .limit 570 570 :=
  ⟨⟨(ship_first_move_snaps_y (1 / 2) 570 30 770 100 testShipLeft).1, rfl, rfl⟩,
   (ship_first_move_snaps_y (1 / 2) 570 30 770 100 testShipLeft).2.2.1
      rfl (Or.inl rfl) rfl⟩

/-- Witness for C4 at a concrete ship with four bullets. -/
theorem ship_animate_bullet_filter_witness :
    (testShipBullets.animate 100).isSome = true
  ∧ ((testShipBullets.animate 100).getD testShipBullets).bullets.Perm
      ((testShipBullets.bullets.filter
          (fun b => !decide (b.inner.position.y < -(icons.BULLET_HEIGHT : Distance)))).map
        (fun b => b.animate 100)) :=
  ⟨rfl, ship_animate_bullet_filter testShipBullets 100 rfl⟩

/-- Witness for C5 (amended) at the concrete fleet. -/
theorem fleet_rigid_after_reposition_witness :
    (testFleet.animate 50).isSome = true
  ∧ fleetRigid ((testFleet.setX 100).setY 200)
  ∧ fleetRigid ((testFleet.animate 50).getD testFleet) := by
  have hx : testFleet.position.xStrategy
      = .cycle 30 (770 - testFleet.size.x) 1 := rfl
  have hsome : (testFleet.animate 50).isSome = true := by
    obtain ⟨q, dir', hq, -, -⟩ := cycle_offset_settles 30 (770 - testFleet.size.x) 1
      testFleet.position.x (50 * testFleet.rate)
      (by norm_num [testFleet, Fleet.new, Size.new, icons.ENEMY_WIDTH])
    show (testFleet.offset (50 * testFleet.rate) 0).isSome = true
    rw [fleet_offset_unfold, hx, hq]
    rfl
  exact ⟨hsome, (fleet_rigid_after_reposition testFleet 100 200 50).1,
    (fleet_rigid_after_reposition testFleet 100 200 50).2 hsome⟩
